import Mathlib

/-!
Shallow embedding of the pexels-mcp-server core:
the download manager (dedup fetch, batch filtering, metadata ledger),
the organization manager (rule-based categorization and file relocation),
and the TTL cache manager.

JavaScript-level behaviour that matters here is modelled faithfully:
falsy-default idioms (`x || d` treats 0 and "" as absent), `Map` update
semantics, in-memory `Set` of downloaded ids, and the try/catch error
boundaries.  Fallible I/O (network transfer, ledger write, file move)
is driven by explicit world records.
-/

/-- JavaScript `o || d` for optional numbers: 0 is falsy and falls back. -/
def jsNatOr (o : Option Nat) (d : Nat) : Nat :=
  match o with
  | some n => if n = 0 then d else n
  | none => d

/-- JavaScript `o || d` for optional strings: the empty string is falsy. -/
def jsStrOr (o : Option String) (d : String) : String :=
  match o with
  | some s => if s = "" then d else s
  | none => d

/-- Truthiness of an optional number (JavaScript `if (x)`). -/
def jsNatTruthy (o : Option Nat) : Bool :=
  match o with
  | some n => n ≠ 0
  | none => false

/-- Truthiness of an optional rational (JavaScript `if (x)`). -/
def jsRatTruthy (o : Option ℚ) : Bool :=
  match o with
  | some q => q ≠ 0
  | none => false

/-- Rendering of an optional string in a template literal: `undefined` if absent. -/
def jsTemplate (o : Option String) : String :=
  match o with
  | some s => s
  | none => "undefined"

/-- path.join of two segments, as used throughout the source. -/
def pathJoin (a b : String) : String := a ++ "/" ++ b

/-- Substring test on character lists (JavaScript `String.prototype.includes`). -/
def listIncludes (sub : List Char) : List Char → Bool
  | [] => sub.isEmpty
  | c :: rest => List.isPrefixOf sub (c :: rest) || listIncludes sub rest

/-- JavaScript `s.includes(sub)`: substring containment. -/
def strIncludes (s sub : String) : Bool := listIncludes sub.toList s.toList

/-- JavaScript `toLowerCase`, character by character (list-based so that
it reduces inside kernel evaluation). -/
def strToLower (s : String) : String := String.mk (s.toList.map Char.toLower)

/-! ## Cache manager (cache-manager.ts) -/

/-- One cache entry: payload, creation time and absolute expiry, in ms. -/
structure CacheEntry (α : Type) where
  data : α
  timestamp : Nat
  expiresAt : Nat
deriving DecidableEq

/-- The cache manager's state: the key→entry map and the default
duration in seconds. -/
structure CacheState (α : Type) where
  cache : List (String × CacheEntry α)
  duration : Nat
deriving DecidableEq

/-- JavaScript `Map.prototype.set`: update in place if the key exists
(keys are unique in a `Map`), else append, preserving insertion order. -/
def mapSet {β : Type} : List (String × β) → String → β → List (String × β)
  | [], k, v => [(k, v)]
  | p :: rest, k, v =>
    if p.1 = k then (k, v) :: rest else p :: mapSet rest k v

/-- JavaScript `Map.prototype.get` as an Option (first matching key). -/
def mapGet {β : Type} : List (String × β) → String → Option β
  | [], _ => none
  | p :: rest, k => if p.1 = k then some p.2 else mapGet rest k

/-- CacheManager.set: store with expiry now + duration·1000 ms, where the
duration is `customDuration || this.duration` (a zero override is falsy). -/
def CacheState.set {α : Type} (st : CacheState α) (now : Nat) (key : String)
    (data : α) (customDuration : Option Nat) : CacheState α :=
  let duration := jsNatOr customDuration st.duration
  let entry : CacheEntry α :=
    { data := data, timestamp := now, expiresAt := now + duration * 1000 }
  { st with cache := mapSet st.cache key entry }

/-- CacheManager.get: a hit returns the payload; an entry whose expiry has
passed is deleted and reported as a miss. -/
def CacheState.get {α : Type} (st : CacheState α) (now : Nat) (key : String) :
    Option α × CacheState α :=
  match mapGet st.cache key with
  | none => (none, st)
  | some entry =>
    if now > entry.expiresAt then
      (none, { st with cache := st.cache.filter (fun p => p.1 ≠ key) })
    else
      (some entry.data, st)

/-! ## Provider data model (pexels-client.ts) -/

/-- Uploader identity block of a provider asset. -/
structure PexelsUser where
  id : Nat
  name : String
  url : String
deriving DecidableEq

/-- One downloadable rendition of an asset. -/
structure VideoFile where
  id : Nat
  quality : String
  file_type : String
  width : Nat
  height : Nat
  fps : ℚ
  link : String
deriving DecidableEq

/-- One provider asset as returned by search / get-by-id. -/
structure PexelsVideo where
  id : Nat
  width : Nat
  height : Nat
  duration : ℚ
  url : String
  image : String
  avg_color : String
  user : PexelsUser
  video_files : List VideoFile
  tags : List String
deriving DecidableEq

/-! ## Download manager data model (download-manager.ts) -/

/-- Nested provider-attributes block of a ledger record. -/
structure PexelsMeta where
  width : Nat
  height : Nat
  duration : ℚ
  url : String
  tags : List String
  user : PexelsUser
deriving DecidableEq

/-- One Asset Record of the metadata ledger (`VideoMetadata`). -/
structure VideoMetadata where
  id : Nat
  filename : String
  local_path : String
  file_size : Nat
  download_date : String
  category : Option String
  pexels_metadata : PexelsMeta
deriving DecidableEq

/-- Derived rendition metadata inside a download result. -/
structure ResultMeta where
  width : Nat
  height : Nat
  duration : ℚ
  fps : ℚ
  codec : String
  bitrate : String
deriving DecidableEq

/-- The result of one `downloadVideo` call. -/
structure DownloadResult where
  video_id : Nat
  local_path : String
  file_size : Nat
  download_time : ℚ
  metadata : ResultMeta
  status : String
  error : Option String
deriving DecidableEq

/-- Options of a single download. -/
structure DownloadOptions where
  video_id : Nat
  quality : Option String := none
  filename : Option String := none
  category : Option String := none
deriving DecidableEq

/-- The optional filter block of a batch download. -/
structure FilterCriteria where
  min_width : Option Nat := none
  min_height : Option Nat := none
  preferred_fps : Option ℚ := none
  exclude_ids : Option (List Nat) := none
deriving DecidableEq

/-- Options of a batch download. -/
structure BatchDownloadOptions where
  max_videos : Option Nat := none
  quality : Option String := none
  category : Option String := none
  filter_criteria : Option FilterCriteria := none
deriving DecidableEq

/-- The download manager's mutable state: download root, the in-memory
`downloadedVideos` id set, and the metadata ledger file contents
(`none` = missing or unreadable). -/
structure DMState where
  downloadPath : String
  downloadedVideos : List Nat
  metadataFile : Option (List VideoMetadata)
deriving DecidableEq

/-- Environment of one `downloadVideo` call: outcome of the fallible
network transfer and ledger write, observed file size, clock readings. -/
structure World where
  transferOk : Bool
  transferErrMsg : String
  writeLedgerOk : Bool
  fileSize : Nat
  nowMs : Nat
  dateIso : String
  elapsed : ℚ
deriving DecidableEq

/-- Externally observable side effects of a `downloadVideo` call. -/
structure Effects where
  networkTransfers : List Nat
  fileWrites : List String
  dirsCreated : List String
deriving DecidableEq

/-- No side effects. -/
def noEffects : Effects := ⟨[], [], []⟩

/-- Concatenation of effect records. -/
def effAppend (a b : Effects) : Effects :=
  ⟨a.networkTransfers ++ b.networkTransfers,
   a.fileWrites ++ b.fileWrites,
   a.dirsCreated ++ b.dirsCreated⟩

/-- Insertion into the `downloadedVideos` set (`Set.prototype.add`). -/
def insertId (s : List Nat) (id : Nat) : List Nat :=
  if s.contains id then s else s ++ [id]

/-- DownloadManager.saveMetadata: read the ledger (empty if absent),
drop any record with the same id, append the new record, write it back
and add the id to the in-memory set.  Any error is caught: on failure
(`ok = false`) the state is entirely unchanged. -/
def saveMetadata (ok : Bool) (st : DMState) (videoMetadata : VideoMetadata) :
    DMState :=
  if ok then
    let metadata := (st.metadataFile.getD []).filter
      (fun video => video.id ≠ videoMetadata.id)
    { st with
      metadataFile := some (metadata ++ [videoMetadata]),
      downloadedVideos := insertId st.downloadedVideos videoMetadata.id }
  else st

/-- DownloadManager.selectBestQuality's preference table:
`qualityOrder[quality] || ['hd', 'sd', 'mobile']`. -/
def qualityOrder (quality : String) : List String :=
  if quality = "hd" then ["hd", "sd", "mobile"]
  else if quality = "sd" then ["sd", "hd", "mobile"]
  else if quality = "mobile" then ["mobile", "sd", "hd"]
  else ["hd", "sd", "mobile"]

/-- First rendition matching any quality of the preference list, scanned
in preference order. -/
def findByQuality (videoFiles : List VideoFile) : List String → Option VideoFile
  | [] => none
  | q :: rest =>
    match videoFiles.find? (fun f => f.quality = q) with
    | some f => some f
    | none => findByQuality videoFiles rest

/-- DownloadManager.selectBestQuality: preference order, then fall back
to the first rendition (`videoFiles[0]`, absent when the list is empty). -/
def selectBestQuality (videoFiles : List VideoFile) (quality : String) :
    Option VideoFile :=
  match findByQuality videoFiles (qualityOrder quality) with
  | some f => some f
  | none => videoFiles.head?

/-- Collapse each maximal run of spaces into one underscore
(JavaScript `replace(/\s+/g, '_')`). -/
def squashSpaces : Bool → List Char → List Char
  | _, [] => []
  | prevSpace, c :: rest =>
    if c = ' ' then
      (if prevSpace then [] else ['_']) ++ squashSpaces true rest
    else c :: squashSpaces false rest

/-- The sanitizer inside generateFilename: strip characters outside
`[a-zA-Z0-9\s-]`, squash whitespace runs to `_`, lowercase. -/
def sanitizeTitle (title : String) : String :=
  strToLower (String.mk (squashSpaces false
    (title.toList.filter (fun c => c.isAlphanum || c = ' ' || c = '-'))))

/-- DownloadManager.generateFilename: first two tags (or "video"),
sanitized, then id and timestamp, with `.mp4` extension. -/
def generateFilename (videoData : PexelsVideo) (nowMs : Nat) : String :=
  let tags :=
    if videoData.tags ≠ [] then String.intercalate "_" (videoData.tags.take 2)
    else "video"
  sanitizeTitle tags ++ "_" ++ toString videoData.id ++ "_" ++
    toString nowMs ++ ".mp4"

/-- DownloadManager.extractCodec. -/
def extractCodec (fileType : String) : String :=
  if strIncludes fileType "mp4" then "h264"
  else if strIncludes fileType "webm" then "vp8"
  else "unknown"

/-- DownloadManager.estimateBitrate: size-in-bits / duration / 1000, in kbps. -/
def estimateBitrate (fileSize : Nat) (duration : ℚ) : String :=
  if duration = 0 then "unknown"
  else toString (round ((fileSize * 8 : ℚ) / duration / 1000)) ++ "kbps"

/-- The failure result built in downloadVideo's catch block. -/
def failedResult (videoId : Nat) (elapsed : ℚ) (msg : String) : DownloadResult :=
  { video_id := videoId
    local_path := ""
    file_size := 0
    download_time := elapsed
    metadata := { width := 0, height := 0, duration := 0, fps := 0,
                  codec := "", bitrate := "" }
    status := "failed"
    error := some msg }

/-- DownloadManager.downloadVideo.  The dedup branch reconstructs a result
from the ledger via getExistingDownloadResult (whose "not found" throw is
caught by the surrounding catch); otherwise a rendition is selected, the
transfer runs, and on success the record is appended via saveMetadata. -/
def downloadVideo (w : World) (st : DMState) (videoDetails : PexelsVideo)
    (options : DownloadOptions) : DownloadResult × DMState × Effects :=
  let videoId := options.video_id
  if st.downloadedVideos.contains videoId then
    -- getExistingDownloadResult
    match st.metadataFile with
    | some metadata =>
      match metadata.find? (fun v => v.id = videoId) with
      | some videoMetadata =>
        ({ video_id := videoId
           local_path := videoMetadata.local_path
           file_size := videoMetadata.file_size
           download_time := 0
           metadata := { width := videoMetadata.pexels_metadata.width
                         height := videoMetadata.pexels_metadata.height
                         duration := videoMetadata.pexels_metadata.duration
                         fps := 0, codec := "unknown", bitrate := "unknown" }
           status := "success"
           error := none }, st, noEffects)
      | none =>
        (failedResult videoId w.elapsed
          ("Video " ++ toString videoId ++ " not found in downloads"),
         st, noEffects)
    | none =>
      (failedResult videoId w.elapsed
        ("Video " ++ toString videoId ++ " not found in downloads"),
       st, noEffects)
  else
    match selectBestQuality videoDetails.video_files
        (jsStrOr options.quality "hd") with
    | none =>
      (failedResult videoId w.elapsed
        ("No suitable video file found for quality: " ++
         jsTemplate options.quality),
       st, noEffects)
    | some videoFile =>
      let filename := jsStrOr options.filename
        (generateFilename videoDetails w.nowMs)
      let categoryPath :=
        match options.category with
        | some c => if c = "" then st.downloadPath
                    else pathJoin st.downloadPath c
        | none => st.downloadPath
      let localPath := pathJoin categoryPath filename
      if w.transferOk then
        let metadata : VideoMetadata :=
          { id := videoId
            filename := filename
            local_path := localPath
            file_size := w.fileSize
            download_date := w.dateIso
            category := options.category
            pexels_metadata := { width := videoDetails.width
                                 height := videoDetails.height
                                 duration := videoDetails.duration
                                 url := videoDetails.url
                                 tags := videoDetails.tags
                                 user := videoDetails.user } }
        let st' := saveMetadata w.writeLedgerOk st metadata
        ({ video_id := videoId
           local_path := localPath
           file_size := w.fileSize
           download_time := w.elapsed
           metadata := { width := videoFile.width
                         height := videoFile.height
                         duration := videoDetails.duration
                         fps := videoFile.fps
                         codec := extractCodec videoFile.file_type
                         bitrate := estimateBitrate w.fileSize
                           videoDetails.duration }
           status := "success"
           error := none }, st',
         { networkTransfers := [videoId]
           fileWrites := localPath ::
             (if w.writeLedgerOk then [pathJoin st.downloadPath "metadata.json"]
              else [])
           dirsCreated := [categoryPath] })
      else
        (failedResult videoId w.elapsed w.transferErrMsg, st,
         { networkTransfers := [videoId], fileWrites := [],
           dirsCreated := [categoryPath] })

/-- The per-video predicate of DownloadManager.filterVideos, applied only
when a filter block is present.  Numeric criteria are truthiness-guarded;
the exclude list is an array and therefore always truthy when present. -/
def filterPred (st : DMState) (criteria : FilterCriteria)
    (video : PexelsVideo) : Bool :=
  if jsNatTruthy criteria.min_width = true ∧
      video.width < criteria.min_width.getD 0 then false
  else if jsNatTruthy criteria.min_height = true ∧
      video.height < criteria.min_height.getD 0 then false
  else if jsRatTruthy criteria.preferred_fps = true ∧
      video.video_files.all (fun f => f.fps ≠ criteria.preferred_fps.getD 0)
      then false
  else if criteria.exclude_ids.isSome ∧
      (criteria.exclude_ids.getD []).contains video.id then false
  else if st.downloadedVideos.contains video.id then false
  else true

/-- DownloadManager.filterVideos: the whole filter, dedup check included,
runs only when `options.filter_criteria` is present. -/
def filterVideos (st : DMState) (videos : List PexelsVideo)
    (options : BatchDownloadOptions) : List PexelsVideo :=
  match options.filter_criteria with
  | some criteria => videos.filter (filterPred st criteria)
  | none => videos

/-- The list of videos a batch download actually processes: filter, then
truncate to `max_videos || 10`. -/
def batchSelection (st : DMState) (videos : List PexelsVideo)
    (options : BatchDownloadOptions) : List PexelsVideo :=
  (filterVideos st videos options).take (jsNatOr options.max_videos 10)

/-- The per-item loop of DownloadManager.batchDownload, with the world of
item i given by `ws i`; state threads through the calls. -/
def batchRun (ws : Nat → World) (options : BatchDownloadOptions) :
    Nat → DMState → List PexelsVideo →
    List DownloadResult × DMState × Effects
  | _, st, [] => ([], st, noEffects)
  | i, st, video :: rest =>
    let r := downloadVideo (ws i) st video
      { video_id := video.id, quality := options.quality,
        filename := none, category := options.category }
    let tail := batchRun ws options (i + 1) r.2.1 rest
    (r.1 :: tail.1, tail.2.1, effAppend r.2.2 tail.2.2)

/-- DownloadManager.batchDownload: filter, truncate, then download each
survivor. -/
def batchDownload (ws : Nat → World) (st : DMState)
    (videos : List PexelsVideo) (options : BatchDownloadOptions) :
    List DownloadResult × DMState × Effects :=
  batchRun ws options 0 st (batchSelection st videos options)

/-- Provider asset ids recorded in a ledger file. -/
def ledgerIds : Option (List VideoMetadata) → List Nat
  | some l => l.map (fun v => v.id)
  | none => []

/-! ## Organization manager (organization-manager.ts) -/

/-- Options of a categorize run. -/
structure OrganizationOptions where
  organization_scheme : Option String := none
  custom_rules : Option (List (String × List String)) := none
deriving DecidableEq

/-- The result record of a categorize run. -/
structure OrganizationResult where
  status : String
  moved_files : Nat
  categories_created : List String
  errors : List String
deriving DecidableEq

/-- The four built-in rule sets (Object.entries iteration order is the
insertion order written in the constructor). -/
def organizationSchemes (key : String) : Option (List (String × List String)) :=
  if key = "emotion" then some
    [("calm", ["water", "clouds", "slow", "peaceful", "serene", "gentle",
               "soft", "quiet"]),
     ("energetic", ["fast", "bright", "motion", "dynamic", "active",
                    "vibrant", "quick", "rapid"]),
     ("mysterious", ["dark", "smoke", "shadow", "fog", "night",
                     "mysterious", "abstract", "enigmatic"]),
     ("happy", ["colorful", "sunny", "playful", "light", "bright",
                "cheerful", "joyful", "positive"]),
     ("dramatic", ["storm", "lightning", "intense", "powerful",
                   "dramatic", "bold", "striking"])]
  else if key = "energy" then some
    [("high", ["fast", "rapid", "quick", "dynamic", "active", "intense",
               "powerful", "energetic"]),
     ("medium", ["moderate", "steady", "balanced", "consistent",
                 "regular", "normal"]),
     ("low", ["slow", "calm", "peaceful", "gentle", "soft", "quiet",
              "relaxed", "serene"])]
  else if key = "color" then some
    [("warm", ["red", "orange", "yellow", "warm", "sunset", "fire",
               "golden"]),
     ("cool", ["blue", "green", "purple", "cool", "ocean", "sky", "ice"]),
     ("neutral", ["black", "white", "gray", "grey", "monochrome",
                  "neutral"]),
     ("vibrant", ["colorful", "bright", "vivid", "saturated", "rainbow",
                  "neon"])]
  else if key = "duration" then some
    [("short", []), ("medium", []), ("long", [])]
  else none

/-- Resolution of the rule set: `organization_scheme || 'emotion'`, then
either the caller's custom rules or the built-in table. -/
def rulesOf (options : OrganizationOptions) :
    Option (List (String × List String)) :=
  let scheme := jsStrOr options.organization_scheme "emotion"
  if scheme = "custom" then options.custom_rules
  else organizationSchemes scheme

/-- The resolved scheme name of a categorize run. -/
def schemeOf (options : OrganizationOptions) : String :=
  jsStrOr options.organization_scheme "emotion"

/-- OrganizationManager.calculateCategoryScore: count keywords occurring
as substrings of the joined lowercased tag string. -/
def calculateCategoryScore (tags : String) (keywords : List String) : Nat :=
  keywords.foldl
    (fun score keyword =>
      if strIncludes tags (strToLower keyword) then score + 1 else score) 0

/-- The running-best fold of categorizeVideo's tag loop: a candidate
replaces the best only with a strictly higher score. -/
def bestFold : Option String × Nat → List (String × Nat) → Option String × Nat
  | best, [] => best
  | best, p :: rest =>
    bestFold (if best.2 < p.2 then (some p.1, p.2) else best) rest

/-- Each category paired with its score against the tag string. -/
def scoredRules (tags : String) (rules : List (String × List String)) :
    List (String × Nat) :=
  rules.map (fun p => (p.1, calculateCategoryScore tags p.2))

/-- The lowercased space-joined tag string of a ledger record. -/
def joinedTags (video : VideoMetadata) : String :=
  strToLower (String.intercalate " " video.pexels_metadata.tags)

/-- OrganizationManager.categorizeVideo: duration buckets for the duration
scheme, else the strictly-best-scoring category, `none` when every score
is zero. -/
def categorizeVideo (video : VideoMetadata)
    (rules : List (String × List String)) (scheme : String) : Option String :=
  if scheme = "duration" then
    let duration := video.pexels_metadata.duration
    if duration ≤ 15 then some "short"
    else if duration ≤ 45 then some "medium"
    else some "long"
  else
    let allTags := joinedTags video
    let best := bestFold (none, 0) (scoredRules allTags rules)
    if 0 < best.2 then best.1 else none

/-- OrganizationManager.moveVideoToCategory: no-op when the destination
equals the current path; any move error is caught internally and reported
only as `false` (not moved), leaving the record unchanged. -/
def moveVideoToCategory (moveOk : Bool) (video : VideoMetadata)
    (category : String) (downloadPath : String) : Bool × VideoMetadata :=
  let newPath := pathJoin (pathJoin downloadPath category) video.filename
  if video.local_path = newPath then (false, video)
  else if moveOk then
    (true, { video with local_path := newPath, category := some category })
  else (false, video)

/-- Environment of a categorize run: ledger contents, per-asset move
outcomes, and the outcome of the final ledger write. -/
structure OrgWorld where
  downloadPath : String
  metadataFile : Option (List VideoMetadata)
  moveOk : Nat → Bool
  writeOk : Bool
  writeErrMsg : String

/-- One iteration of organizeByCategory's per-video loop: categorize, then
move when a category was assigned.  Returns the updated record, whether it
was moved, and the category it was moved into. -/
def orgVideoStep (w : OrgWorld) (rules : List (String × List String))
    (scheme : String) (video : VideoMetadata) :
    VideoMetadata × Bool × Option String :=
  match categorizeVideo video rules scheme with
  | none => (video, false, none)
  | some category =>
    let r := moveVideoToCategory (w.moveOk video.id) video category
      w.downloadPath
    (r.2, r.1, if r.1 then some category else none)

/-- Running counters of the loop. -/
structure OrgAcc where
  moved_files : Nat
  categories_created : List String
deriving DecidableEq

/-- Accumulator update after one video. -/
def orgAccStep (acc : OrgAcc) (moved : Bool) (category : Option String) :
    OrgAcc :=
  if moved then
    { moved_files := acc.moved_files + 1
      categories_created :=
        match category with
        | some c =>
          if acc.categories_created.contains c then acc.categories_created
          else acc.categories_created ++ [c]
        | none => acc.categories_created }
  else acc

/-- The per-video loop of organizeByCategory, threading the counters and
rebuilding the (in-place mutated) metadata list. -/
def orgLoop (w : OrgWorld) (rules : List (String × List String))
    (scheme : String) : List VideoMetadata → OrgAcc →
    OrgAcc × List VideoMetadata
  | [], acc => (acc, [])
  | video :: rest, acc =>
    let s := orgVideoStep w rules scheme video
    let acc' := orgAccStep acc s.2.1 s.2.2
    let tail := orgLoop w rules scheme rest acc'
    (tail.1, s.1 :: tail.2)

/-- OrganizationManager.organizeByCategory.  Returns the result record and
the ledger file contents afterwards.  Failure of the whole run (invalid
scheme, missing ledger, failed final write) is the outer catch: status
`failed` plus one error message; per-video move failures never reach the
error list because moveVideoToCategory swallows them. -/
def organizeByCategory (w : OrgWorld) (options : OrganizationOptions) :
    OrganizationResult × Option (List VideoMetadata) :=
  match rulesOf options with
  | none =>
    ({ status := "failed", moved_files := 0, categories_created := []
       errors := ["Invalid organization scheme: " ++ schemeOf options] },
     w.metadataFile)
  | some rules =>
    match w.metadataFile with
    | none =>
      ({ status := "failed", moved_files := 0, categories_created := []
         errors := ["No downloaded videos found"] }, none)
    | some metadata =>
      let r := orgLoop w rules (schemeOf options) metadata
        { moved_files := 0, categories_created := [] }
      if w.writeOk then
        ({ status := "success", moved_files := r.1.moved_files
           categories_created := r.1.categories_created, errors := [] },
         some r.2)
      else
        ({ status := "failed", moved_files := r.1.moved_files
           categories_created := r.1.categories_created
           errors := [w.writeErrMsg] },
         some metadata)

/-! ## Specification-side definitions and concrete sample inputs -/

/-- The maximum score among scored categories (0 for an empty rule set). -/
def maxScoreOf (scored : List (String × Nat)) : Nat :=
  (scored.map (fun p => p.2)).foldr max 0

/-- Specification-side restatement of the tag-based choice, following the
claim's words: the first category, in rule-set order, whose score attains
the maximum over all categories; none when the maximum is zero. -/
def specFirstMaxCategory (scored : List (String × Nat)) : Option String :=
  if maxScoreOf scored = 0 then none
  else (scored.find? (fun p => p.2 = maxScoreOf scored)).map (fun p => p.1)

/-- A ledger record whose tags score 1 for both `calm` (water) and
`mysterious` (dark) under the emotion scheme: a genuine tie. -/
def vTie : VideoMetadata :=
  { id := 9, filename := "t.mp4", local_path := "dl/t.mp4",
    file_size := 50, download_date := "d", category := none,
    pexels_metadata := { width := 1280, height := 720, duration := 20,
                         url := "u", tags := ["water", "dark"],
                         user := ⟨1, "n", "nu"⟩ } }

/-- The record cited by the C3 scenario: tagged `water`, so the emotion
scheme assigns `calm`, and currently stored outside the `calm` folder. -/
def cMeta : VideoMetadata :=
  ⟨7, "f.mp4", "dl/old/f.mp4", 100, "d", none,
   ⟨1920, 1080, 10, "x", ["water"], ⟨1, "n", "nu"⟩⟩⟩

/-- A categorize environment in which every file move fails while the
ledger is readable and writable. -/
def cOrgWorld : OrgWorld :=
  ⟨"dl", some [cMeta], fun _ => false, true, "werr"⟩

/-- A manager state whose ledger and in-memory set already hold asset 1. -/
def dState1 : DMState :=
  ⟨"dl", [1], some [⟨1, "a.mp4", "dl/a.mp4", 10, "d", none,
    ⟨1920, 1080, 10, "u", [], ⟨1, "n", "nu"⟩⟩⟩]⟩

/-- The already-fetched candidate (same id 1). -/
def pVideo1 : PexelsVideo :=
  ⟨1, 1920, 1080, 10, "u", "i", "c", ⟨1, "n", "nu"⟩,
   [⟨1, "hd", "video/mp4", 1920, 1080, 30, "l"⟩], []⟩

/-- A fresh candidate with id 2. -/
def pVideo2 : PexelsVideo :=
  ⟨2, 1920, 1080, 12, "u2", "i2", "c2", ⟨1, "n", "nu"⟩,
   [⟨2, "hd", "video/mp4", 1920, 1080, 30, "l2"⟩], []⟩

/-- The world used by the C2 batch witness: every transfer and ledger
write succeeds. -/
def wsOne : Nat → World := fun _ => ⟨true, "e", true, 5, 0, "d", 1⟩

/-- A fully populated filter block: minimum 100×100, preferred 30 fps,
exclude id 5. -/
def bCrit1 : FilterCriteria := ⟨some 100, some 100, some 30, some [5]⟩

/-- Batch options carrying the populated filter block. -/
def bOpts1 : BatchDownloadOptions := ⟨none, none, none, some bCrit1⟩

/-- Batch options with no filter block at all. -/
def bOptsNone : BatchDownloadOptions := ⟨none, none, none, none⟩

/-! ## Claim theorems -/

/-- C8: under the duration scheme, a duration of at most 15 s is bucketed
`short`, at most 45 s `medium`, anything greater `long`; the outcome is
always some bucket, so no asset is left uncategorized by this scheme. -/
theorem C8_duration_buckets (video : VideoMetadata)
    (rules : List (String × List String)) :
    categorizeVideo video rules "duration" =
      some (if video.pexels_metadata.duration ≤ 15 then "short"
            else if video.pexels_metadata.duration ≤ 45 then "medium"
            else "long") ∧
    (categorizeVideo video rules "duration").isSome = true := by
  have h : categorizeVideo video rules "duration" =
      (if video.pexels_metadata.duration ≤ 15 then some "short"
       else if video.pexels_metadata.duration ≤ 45 then some "medium"
       else some "long") := by
    unfold categorizeVideo
    simp
  constructor
  · rw [h]; split_ifs <;> rfl
  · rw [h]; split_ifs <;> rfl

/-- Lookup of the key just set returns the new entry. -/
theorem mapGet_mapSet_self {β : Type} (m : List (String × β)) (k : String)
    (v : β) : mapGet (mapSet m k v) k = some v := by
  induction m with
  | nil => simp [mapSet, mapGet]
  | cons p rest ih =>
    by_cases h : p.1 = k
    · simp [mapSet, h, mapGet]
    · simpa [mapSet, h, mapGet] using ih

/-- Setting one key leaves every other key's lookup unchanged. -/
theorem mapGet_mapSet_ne {β : Type} (m : List (String × β)) (k k' : String)
    (v : β) (h : k' ≠ k) : mapGet (mapSet m k v) k' = mapGet m k' := by
  induction m with
  | nil => simp [mapSet, mapGet, Ne.symm h]
  | cons p rest ih =>
    by_cases hp : p.1 = k
    · simp [mapSet, hp, mapGet, Ne.symm h]
    · by_cases hp' : p.1 = k'
      · simp [mapSet, hp, mapGet, hp', h]
      · simpa [mapSet, hp, mapGet, hp'] using ih

/-- After filtering a key out, its lookup misses. -/
theorem mapGet_filter_self {β : Type} (m : List (String × β)) (k : String) :
    mapGet (m.filter (fun p => p.1 ≠ k)) k = none := by
  induction m with
  | nil => simp [mapGet]
  | cons p rest ih =>
    by_cases h : p.1 = k
    · simpa [h] using ih
    · simpa [mapGet, h] using ih

/-- C5 counterexample: with a configured default of 3600 s, a `set` at
time 0 carrying an explicit ttl override of 0 stores an expiry of
3 600 000 ms (the default), not now + 0·1000: a zero override is falsy in
`customDuration || this.duration` and is silently ignored, refuting
"expiry equal to now plus the ttl (the override if given)". -/
theorem C5_cache_counterexample :
    ((⟨[], 3600⟩ : CacheState Nat).set 0 "k" 42 (some 0)).cache =
      [("k", ⟨42, 0, 3600000⟩)] ∧
    (3600000 : Nat) ≠ 0 + 0 * 1000 := by
  constructor
  · rfl
  · decide

/-- C5 (amended): `set(key, value, ttl)` stores the value with expiry
now + 1000·(override if given and nonzero, else the configured default),
unconditionally replacing any prior entry for that key and leaving other
keys untouched; `get(key)` at time t returns the stored value while t has
not passed the expiry, and otherwise signals absence and deletes the
entry from internal storage. -/
theorem C5_cache_set_get {α : Type} (st : CacheState α) (now : Nat)
    (key : String) (v : α) (ttl : Option Nat) :
    mapGet (st.set now key v ttl).cache key =
      some ⟨v, now, now + jsNatOr ttl st.duration * 1000⟩ ∧
    (∀ k', k' ≠ key → mapGet (st.set now key v ttl).cache k' =
      mapGet st.cache k') ∧
    (∀ t, t ≤ now + jsNatOr ttl st.duration * 1000 →
      (st.set now key v ttl).get t key = (some v, st.set now key v ttl)) ∧
    (∀ t, now + jsNatOr ttl st.duration * 1000 < t →
      ((st.set now key v ttl).get t key).1 = none ∧
      mapGet ((st.set now key v ttl).get t key).2.cache key = none) := by
  have hself : mapGet (st.set now key v ttl).cache key =
      some ⟨v, now, now + jsNatOr ttl st.duration * 1000⟩ := by
    unfold CacheState.set
    exact mapGet_mapSet_self st.cache key _
  refine ⟨hself, ?_, ?_, ?_⟩
  · intro k' hk'
    unfold CacheState.set
    exact mapGet_mapSet_ne st.cache key k' _ hk'
  · intro t ht
    unfold CacheState.get
    rw [hself]
    simp only []
    rw [if_neg (by omega)]
  · intro t ht
    unfold CacheState.get
    rw [hself]
    simp only []
    rw [if_pos (by omega)]
    exact ⟨rfl, mapGet_filter_self _ key⟩

/-- C5 witness: the spec's expiry scenario with a 1 s ttl and a lookup at
1100 ms — the value is present at 1000 ms, and at 1100 ms the lookup
misses and the entry is gone from internal storage. -/
theorem C5_cache_set_get_witness :
    ((1000 : Nat) ≤ 0 + jsNatOr (some 1) 3600 * 1000 ∧
      ((⟨[], 3600⟩ : CacheState Nat).set 0 "k" 5 (some 1)).get 1000 "k" =
        (some 5, (⟨[], 3600⟩ : CacheState Nat).set 0 "k" 5 (some 1))) ∧
    ((0 + jsNatOr (some 1) 3600 * 1000 < (1100 : Nat)) ∧
      (((⟨[], 3600⟩ : CacheState Nat).set 0 "k" 5 (some 1)).get 1100 "k").1 =
        none ∧
      mapGet ((((⟨[], 3600⟩ : CacheState Nat).set 0 "k" 5
        (some 1)).get 1100 "k").2).cache "k" = none) :=
  ⟨⟨by decide,
    (C5_cache_set_get (⟨[], 3600⟩ : CacheState Nat) 0 "k" 5
      (some 1)).2.2.1 1000 (by decide)⟩,
   ⟨by decide,
    (C5_cache_set_get (⟨[], 3600⟩ : CacheState Nat) 0 "k" 5
      (some 1)).2.2.2 1100 (by decide)⟩⟩

/-- With zero renditions, no preference list finds a match. -/
theorem findByQuality_nil (order : List String) :
    findByQuality [] order = none := by
  induction order with
  | nil => rfl
  | cons q rest ih => simpa [findByQuality] using ih

/-- C7: the rendition is the first available one in the preference order
of the requested quality (hd: hd,sd,mobile; sd: sd,hd,mobile; mobile:
mobile,sd,hd); with no match anywhere in the order, the first rendition
of the asset's list is selected; with zero renditions, the fetch yields a
failure result carrying the "no suitable video file" error. -/
theorem C7_rendition_selection (files : List VideoFile) (q : String)
    (q1 q2 q3 : String) (h : qualityOrder q = [q1, q2, q3]) :
    (qualityOrder "hd" = ["hd", "sd", "mobile"] ∧
     qualityOrder "sd" = ["sd", "hd", "mobile"] ∧
     qualityOrder "mobile" = ["mobile", "sd", "hd"]) ∧
    selectBestQuality files q =
      ((files.find? (fun f => f.quality = q1)).orElse (fun _ =>
        ((files.find? (fun f => f.quality = q2)).orElse (fun _ =>
          ((files.find? (fun f => f.quality = q3)).orElse (fun _ =>
            files.head?)))))) ∧
    (∀ (w : World) (st : DMState) (videoDetails : PexelsVideo)
        (options : DownloadOptions),
      videoDetails.video_files = [] →
      st.downloadedVideos.contains options.video_id = false →
      (downloadVideo w st videoDetails options).1.status = "failed" ∧
      (downloadVideo w st videoDetails options).1.error =
        some ("No suitable video file found for quality: " ++
          jsTemplate options.quality)) := by
  refine ⟨⟨rfl, rfl, rfl⟩, ?_, ?_⟩
  · unfold selectBestQuality
    rw [h]
    cases h1 : files.find? (fun f => f.quality = q1) with
    | some f => simp [findByQuality, h1]
    | none =>
      cases h2 : files.find? (fun f => f.quality = q2) with
      | some f => simp [findByQuality, h1, h2]
      | none =>
        cases h3 : files.find? (fun f => f.quality = q3) with
        | some f => simp [findByQuality, h1, h2, h3]
        | none => simp [findByQuality, h1, h2, h3]
  · intro w st videoDetails options hfiles hmem
    have hsel : selectBestQuality videoDetails.video_files
        (jsStrOr options.quality "hd") = none := by
      rw [hfiles]
      unfold selectBestQuality
      rw [findByQuality_nil]
      rfl
    unfold downloadVideo
    simp only [hmem, Bool.false_eq_true, if_false, hsel]
    exact ⟨rfl, rfl⟩

/-- C7 witness: the spec's fallback scenario — requesting `mobile` for an
asset with only `hd` and `sd` renditions selects the `sd` one — plus the
zero-rendition failure at a concrete call. -/
theorem C7_rendition_selection_witness :
    selectBestQuality
      [⟨1, "hd", "video/mp4", 1920, 1080, 30, "l1"⟩,
       ⟨2, "sd", "video/mp4", 640, 360, 30, "l2"⟩] "mobile" =
      some ⟨2, "sd", "video/mp4", 640, 360, 30, "l2"⟩ ∧
    (downloadVideo ⟨true, "e", true, 9, 0, "d", 1⟩
        ⟨"dl", [], none⟩
        ⟨3, 0, 0, 5, "u", "i", "c", ⟨1, "n", "nu"⟩, [], []⟩
        ⟨3, some "hd", none, none⟩).1.status = "failed" := by
  constructor
  · have h := (C7_rendition_selection
      [⟨1, "hd", "video/mp4", 1920, 1080, 30, "l1"⟩,
       ⟨2, "sd", "video/mp4", 640, 360, 30, "l2"⟩] "mobile"
      "mobile" "sd" "hd" rfl).2.1
    rw [h]
    rfl
  · exact ((C7_rendition_selection [] "hd" "hd" "sd" "mobile" rfl).2.2
      ⟨true, "e", true, 9, 0, "d", 1⟩ ⟨"dl", [], none⟩
      ⟨3, 0, 0, 5, "u", "i", "c", ⟨1, "n", "nu"⟩, [], []⟩
      ⟨3, some "hd", none, none⟩ rfl rfl).1

/-- C1: when the asset id already has a ledger record (and is in the
in-memory index loaded from the ledger), the fetch returns a success
result whose path and byte size come from that record with zero download
time, the state is untouched, and no network transfer, file write or
directory creation happens. -/
theorem C1_dedup_fetch (w : World) (st : DMState)
    (videoDetails : PexelsVideo) (options : DownloadOptions)
    (l : List VideoMetadata) (r : VideoMetadata)
    (hfile : st.metadataFile = some l)
    (hmem : st.downloadedVideos.contains options.video_id = true)
    (hrec : l.find? (fun v => v.id = options.video_id) = some r) :
    (downloadVideo w st videoDetails options).1.status = "success" ∧
    (downloadVideo w st videoDetails options).1.local_path = r.local_path ∧
    (downloadVideo w st videoDetails options).1.file_size = r.file_size ∧
    (downloadVideo w st videoDetails options).1.download_time = 0 ∧
    (downloadVideo w st videoDetails options).2.1 = st ∧
    (downloadVideo w st videoDetails options).2.2 = noEffects := by
  have hmem' : options.video_id ∈ st.downloadedVideos := by
    simpa using hmem
  unfold downloadVideo
  simp [hmem', hfile, hrec]

/-- C1 witness: a concrete second fetch of asset 7 short-circuits on the
ledger record. -/
theorem C1_dedup_fetch_witness :
    (downloadVideo ⟨true, "e", true, 9, 0, "d", 1⟩
        ⟨"dl", [7], some [⟨7, "f.mp4", "dl/f.mp4", 123, "d", none,
          ⟨1920, 1080, 10, "u", ["water"], ⟨1, "n", "nu"⟩⟩⟩]⟩
        ⟨3, 0, 0, 5, "u", "i", "c", ⟨1, "n", "nu"⟩, [], []⟩
        ⟨7, none, none, none⟩).1.status = "success" ∧
    (downloadVideo ⟨true, "e", true, 9, 0, "d", 1⟩
        ⟨"dl", [7], some [⟨7, "f.mp4", "dl/f.mp4", 123, "d", none,
          ⟨1920, 1080, 10, "u", ["water"], ⟨1, "n", "nu"⟩⟩⟩]⟩
        ⟨3, 0, 0, 5, "u", "i", "c", ⟨1, "n", "nu"⟩, [], []⟩
        ⟨7, none, none, none⟩).1.local_path = "dl/f.mp4" ∧
    (downloadVideo ⟨true, "e", true, 9, 0, "d", 1⟩
        ⟨"dl", [7], some [⟨7, "f.mp4", "dl/f.mp4", 123, "d", none,
          ⟨1920, 1080, 10, "u", ["water"], ⟨1, "n", "nu"⟩⟩⟩]⟩
        ⟨3, 0, 0, 5, "u", "i", "c", ⟨1, "n", "nu"⟩, [], []⟩
        ⟨7, none, none, none⟩).2.2 = noEffects := by
  have h := C1_dedup_fetch ⟨true, "e", true, 9, 0, "d", 1⟩
    ⟨"dl", [7], some [⟨7, "f.mp4", "dl/f.mp4", 123, "d", none,
      ⟨1920, 1080, 10, "u", ["water"], ⟨1, "n", "nu"⟩⟩⟩]⟩
    ⟨3, 0, 0, 5, "u", "i", "c", ⟨1, "n", "nu"⟩, [], []⟩
    ⟨7, none, none, none⟩
    [⟨7, "f.mp4", "dl/f.mp4", 123, "d", none,
      ⟨1920, 1080, 10, "u", ["water"], ⟨1, "n", "nu"⟩⟩⟩]
    ⟨7, "f.mp4", "dl/f.mp4", 123, "d", none,
      ⟨1920, 1080, 10, "u", ["water"], ⟨1, "n", "nu"⟩⟩⟩
    rfl rfl rfl
  exact ⟨h.1, h.2.1, h.2.2.2.2.2⟩

/-- C10: when the transfer and the file write complete but the ledger
write fails, saveMetadata swallows the error: the fetch still returns a
success result while neither the ledger file nor the in-memory
already-fetched set records the asset (the state is unchanged). -/
theorem C10_ledger_write_failure_swallowed (w : World) (st : DMState)
    (videoDetails : PexelsVideo) (options : DownloadOptions)
    (f : VideoFile)
    (hmem : st.downloadedVideos.contains options.video_id = false)
    (hsel : selectBestQuality videoDetails.video_files
      (jsStrOr options.quality "hd") = some f)
    (ht : w.transferOk = true)
    (hw : w.writeLedgerOk = false) :
    (downloadVideo w st videoDetails options).1.status = "success" ∧
    (downloadVideo w st videoDetails options).2.1 = st ∧
    (downloadVideo w st videoDetails options).2.1.metadataFile =
      st.metadataFile ∧
    (downloadVideo w st videoDetails options).2.1.downloadedVideos =
      st.downloadedVideos := by
  have hmem' : options.video_id ∉ st.downloadedVideos := by
    simpa using hmem
  unfold downloadVideo
  simp [hmem', hsel, ht, hw, saveMetadata]

/-- C10 witness: a concrete fetch of asset 3 with a failing ledger write
still reports success and leaves the state unchanged. -/
theorem C10_ledger_write_failure_swallowed_witness :
    (downloadVideo ⟨true, "e", false, 9, 0, "d", 1⟩
        ⟨"dl", [], some []⟩
        ⟨3, 640, 360, 5, "u", "i", "c", ⟨1, "n", "nu"⟩,
          [⟨1, "hd", "video/mp4", 1920, 1080, 30, "l1"⟩], []⟩
        ⟨3, none, none, none⟩).1.status = "success" ∧
    (downloadVideo ⟨true, "e", false, 9, 0, "d", 1⟩
        ⟨"dl", [], some []⟩
        ⟨3, 640, 360, 5, "u", "i", "c", ⟨1, "n", "nu"⟩,
          [⟨1, "hd", "video/mp4", 1920, 1080, 30, "l1"⟩], []⟩
        ⟨3, none, none, none⟩).2.1 = ⟨"dl", [], some []⟩ := by
  have h := C10_ledger_write_failure_swallowed
    ⟨true, "e", false, 9, 0, "d", 1⟩ ⟨"dl", [], some []⟩
    ⟨3, 640, 360, 5, "u", "i", "c", ⟨1, "n", "nu"⟩,
      [⟨1, "hd", "video/mp4", 1920, 1080, 30, "l1"⟩], []⟩
    ⟨3, none, none, none⟩
    ⟨1, "hd", "video/mp4", 1920, 1080, 30, "l1"⟩
    rfl rfl rfl rfl
  exact ⟨h.1, h.2.1⟩

/-- Every score is bounded by the maximum. -/
theorem le_maxScoreOf (scored : List (String × Nat)) (p : String × Nat)
    (hp : p ∈ scored) : p.2 ≤ maxScoreOf scored := by
  induction scored with
  | nil => cases hp
  | cons q rest ih =>
    rcases List.mem_cons.mp hp with hq | hmem
    · subst hq
      simp only [maxScoreOf, List.map_cons, List.foldr_cons]
      exact Nat.le_max_left _ _
    · have h1 := ih hmem
      simp only [maxScoreOf, List.map_cons, List.foldr_cons] at h1 ⊢
      exact le_trans h1 (Nat.le_max_right _ _)

/-- The running best is untouched by candidates that never beat it. -/
theorem bestFold_of_forall_le (scored : List (String × Nat))
    (acc : Option String × Nat) (h : ∀ p ∈ scored, p.2 ≤ acc.2) :
    bestFold acc scored = acc := by
  induction scored with
  | nil => rfl
  | cons q rest ih =>
    have hq : ¬ acc.2 < q.2 := Nat.not_lt.mpr (h q (List.mem_cons_self q rest))
    show bestFold (if acc.2 < q.2 then (some q.1, q.2) else acc) rest = acc
    rw [if_neg hq]
    exact ih (fun p hp => h p (List.mem_cons_of_mem q hp))

/-- When some candidate strictly beats the running best, the fold ends at
the first candidate attaining the maximum score. -/
theorem bestFold_find (scored : List (String × Nat))
    (acc : Option String × Nat) (h : acc.2 < maxScoreOf scored) :
    ∃ p, scored.find? (fun q => q.2 = maxScoreOf scored) = some p ∧
      bestFold acc scored = (some p.1, p.2) := by
  induction scored generalizing acc with
  | nil => exact absurd h (by simp [maxScoreOf])
  | cons q rest ih =>
    by_cases hq : q.2 = maxScoreOf (q :: rest)
    · refine ⟨q, ?_, ?_⟩
      · simp [List.find?, hq]
      · have hlt : acc.2 < q.2 := by omega
        show bestFold (if acc.2 < q.2 then (some q.1, q.2) else acc) rest =
          (some q.1, q.2)
        rw [if_pos hlt]
        refine bestFold_of_forall_le rest (some q.1, q.2) (fun p hp => ?_)
        have h1 : p.2 ≤ maxScoreOf rest :=
          le_maxScoreOf rest p hp
        have h2 : maxScoreOf rest ≤ maxScoreOf (q :: rest) := by
          simp [maxScoreOf, Nat.le_max_right]
        simp only []
        omega
    · have hmax : maxScoreOf (q :: rest) = maxScoreOf rest := by
        have := max_choice q.2 (maxScoreOf rest)
        simp only [maxScoreOf, List.map_cons, List.foldr_cons] at hq ⊢
        rcases this with h1 | h1
        · exact absurd h1.symm hq
        · exact h1
      have hqlt : q.2 < maxScoreOf (q :: rest) := by
        have : q.2 ≤ maxScoreOf (q :: rest) :=
          le_maxScoreOf (q :: rest) q (by simp)
        omega
      have hacc' : (if acc.2 < q.2 then ((some q.1 : Option String), q.2)
          else acc).2 < maxScoreOf rest := by
        rw [← hmax]
        split <;> omega
      obtain ⟨p, hfind, hfold⟩ := ih _ hacc'
      refine ⟨p, ?_, ?_⟩
      · rw [hmax] at hq ⊢
        simpa [List.find?, hq] using hfind
      · show bestFold (if acc.2 < q.2 then (some q.1, q.2) else acc) rest =
          (some p.1, p.2)
        exact hfold

/-- If every category scores zero the maximum is zero. -/
theorem maxScoreOf_eq_zero (scored : List (String × Nat))
    (h : ∀ p ∈ scored, p.2 = 0) : maxScoreOf scored = 0 := by
  induction scored with
  | nil => rfl
  | cons q rest ih =>
    have hih := ih (fun p hp => h p (List.mem_cons_of_mem q hp))
    simp only [maxScoreOf, List.map_cons, List.foldr_cons] at hih ⊢
    rw [h q (List.mem_cons_self q rest), hih]
    exact Nat.max_self 0

/-- C4: under every tag-based scheme the assigned category is the first
category, in rule-set iteration order, whose keyword count attains the
maximum over all categories (strict improvement wins, ties go to the
first-seen candidate); if every category scores zero, the asset is left
uncategorized: the per-video step neither moves it nor records an error. -/
theorem C4_tag_categorization (video : VideoMetadata)
    (rules : List (String × List String)) (scheme : String)
    (h : scheme ≠ "duration") :
    categorizeVideo video rules scheme =
      specFirstMaxCategory (scoredRules (joinedTags video) rules) ∧
    ((∀ p ∈ rules, calculateCategoryScore (joinedTags video) p.2 = 0) →
      categorizeVideo video rules scheme = none) ∧
    (∀ w : OrgWorld, categorizeVideo video rules scheme = none →
      orgVideoStep w rules scheme video = (video, false, none)) := by
  have hcat : categorizeVideo video rules scheme =
      (if 0 < (bestFold (none, 0)
          (scoredRules (joinedTags video) rules)).2
       then (bestFold (none, 0) (scoredRules (joinedTags video) rules)).1
       else none) := by
    unfold categorizeVideo
    rw [if_neg h]
  have hmain : categorizeVideo video rules scheme =
      specFirstMaxCategory (scoredRules (joinedTags video) rules) := by
    rw [hcat]
    by_cases hM : maxScoreOf (scoredRules (joinedTags video) rules) = 0
    · have hall : ∀ p ∈ scoredRules (joinedTags video) rules, p.2 ≤ 0 := by
        intro p hp
        have := le_maxScoreOf _ p hp
        omega
      rw [bestFold_of_forall_le _ (none, 0) hall]
      simp [specFirstMaxCategory, hM]
    · obtain ⟨p, hfind, hfold⟩ := bestFold_find
        (scoredRules (joinedTags video) rules) (none, 0)
        (Nat.pos_of_ne_zero hM)
      have hp2 : p.2 = maxScoreOf (scoredRules (joinedTags video) rules) := by
        have := List.find?_some hfind
        simpa using this
      rw [hfold]
      simp only []
      rw [if_pos (by omega)]
      simp [specFirstMaxCategory, hM, hfind]
  refine ⟨hmain, ?_, ?_⟩
  · intro hzero
    rw [hmain]
    have hM : maxScoreOf (scoredRules (joinedTags video) rules) = 0 := by
      refine maxScoreOf_eq_zero _ (fun p hp => ?_)
      obtain ⟨r, hr, hpr⟩ := List.mem_map.mp hp
      rw [← hpr]
      exact hzero r hr
    simp [specFirstMaxCategory, hM]
  · intro w hnone
    simp [orgVideoStep, hnone]

/-- C4 witness: on the tie between `calm` and `mysterious` the first-seen
category `calm` is chosen, matching the spec-side first-max definition. -/
theorem C4_tag_categorization_witness :
    ("emotion" : String) ≠ "duration" ∧
    categorizeVideo vTie ((organizationSchemes "emotion").getD [])
        "emotion" =
      specFirstMaxCategory (scoredRules (joinedTags vTie)
        ((organizationSchemes "emotion").getD [])) ∧
    categorizeVideo vTie ((organizationSchemes "emotion").getD [])
        "emotion" = some "calm" ∧
    calculateCategoryScore (joinedTags vTie)
      ["dark", "smoke", "shadow", "fog", "night", "mysterious",
       "abstract", "enigmatic"] = 1 ∧
    calculateCategoryScore (joinedTags vTie)
      ["water", "clouds", "slow", "peaceful", "serene", "gentle",
       "soft", "quiet"] = 1 :=
  ⟨by decide,
   (C4_tag_categorization vTie ((organizationSchemes "emotion").getD [])
     "emotion" (by decide)).1,
   by decide, by decide, by decide⟩

/-- The metadata list after the loop is the element-wise image of the
per-video step: every record is processed, independently of the others. -/
theorem orgLoop_snd (w : OrgWorld) (rules : List (String × List String))
    (scheme : String) (l : List VideoMetadata) (acc : OrgAcc) :
    (orgLoop w rules scheme l acc).2 =
      l.map (fun v => (orgVideoStep w rules scheme v).1) := by
  induction l generalizing acc with
  | nil => rfl
  | cons v rest ih => simp [orgLoop, ih]

/-- C3 counterexample: asset 7 is assigned `calm` and its relocation is
attempted and fails, yet the returned error list is empty (the move
helper swallows the failure and just reports "not moved"), refuting "a
failure while relocating one asset's file is recorded in the returned
error list keyed by that asset's id". -/
theorem C3_org_counterexample :
    categorizeVideo cMeta ((organizationSchemes "emotion").getD [])
      "emotion" = some "calm" ∧
    cMeta.local_path ≠ pathJoin (pathJoin "dl" "calm") cMeta.filename ∧
    moveVideoToCategory false cMeta "calm" "dl" = (false, cMeta) ∧
    (organizeByCategory cOrgWorld ⟨none, none⟩).1 =
      ⟨"success", 0, [], []⟩ :=
  ⟨by decide, by decide, by decide, by decide⟩

/-- C3 (amended): a failure while relocating one asset's file is caught
inside the move helper and reported only as "not moved" — nothing is
added to the returned error list — and processing of the remaining
assets continues (the final ledger is the element-wise image of the
per-video step); the overall status is `failed` exactly when the scheme
is invalid, the Ledger cannot be read, or the final Ledger write fails,
and is otherwise `success` with an empty error list. -/
theorem C3_org_error_handling (w : OrgWorld)
    (options : OrganizationOptions) :
    ((organizeByCategory w options).1.status = "failed" ↔
      (rulesOf options = none ∨ w.metadataFile = none ∨
       w.writeOk = false)) ∧
    (∀ (rules : List (String × List String))
        (metadata : List VideoMetadata),
      rulesOf options = some rules → w.metadataFile = some metadata →
      w.writeOk = true →
      (organizeByCategory w options).1.errors = [] ∧
      (organizeByCategory w options).2 =
        some (metadata.map (fun v =>
          (orgVideoStep w rules (schemeOf options) v).1))) := by
  cases hr : rulesOf options with
  | none =>
    refine ⟨?_, ?_⟩
    · simp [organizeByCategory, hr]
    · intro rules metadata hrs
      exact absurd hrs (by simp)
  | some rules0 =>
    cases hm : w.metadataFile with
    | none =>
      refine ⟨?_, ?_⟩
      · simp [organizeByCategory, hr, hm]
      · intro rules metadata hrs hms
        exact absurd hms (by simp)
    | some metadata0 =>
      cases hw : w.writeOk with
      | false =>
        refine ⟨?_, ?_⟩
        · simp [organizeByCategory, hr, hm, hw]
        · intro rules metadata hrs hms hws
          exact absurd hws (by simp)
      | true =>
        refine ⟨?_, ?_⟩
        · simp [organizeByCategory, hr, hm, hw]
        · intro rules metadata hrs hms hws
          injection hrs with hrs'
          injection hms with hms'
          subst hrs'
          subst hms'
          constructor
          · simp [organizeByCategory, hr, hm, hw]
          · simp [organizeByCategory, hr, hm, hw, orgLoop_snd]

/-- C3 witness: in the all-moves-fail environment the run reports success
with an empty error list and rewrites the ledger as the element-wise
image of the per-video step. -/
theorem C3_org_error_handling_witness :
    (organizeByCategory cOrgWorld ⟨none, none⟩).1.errors = [] ∧
    (organizeByCategory cOrgWorld ⟨none, none⟩).2 =
      some ([cMeta].map (fun v =>
        (orgVideoStep cOrgWorld ((organizationSchemes "emotion").getD [])
          (schemeOf ⟨none, none⟩) v).1)) :=
  (C3_org_error_handling cOrgWorld ⟨none, none⟩).2
    ((organizationSchemes "emotion").getD []) [cMeta] rfl rfl rfl

/-- The ledger ids of an optional file equal the ids of its getD-contents. -/
theorem ledgerIds_eq_getD (o : Option (List VideoMetadata)) :
    ledgerIds o = (o.getD []).map (fun v => v.id) := by
  cases o <;> rfl

/-- The move helper never changes a record's id. -/
theorem moveVideoToCategory_id (ok : Bool) (v : VideoMetadata) (c p : String) :
    ((moveVideoToCategory ok v c p).2).id = v.id := by
  unfold moveVideoToCategory
  by_cases h1 : v.local_path = pathJoin (pathJoin p c) v.filename <;>
    by_cases h2 : ok = true <;> simp [h1, h2]

/-- The per-video organization step never changes a record's id. -/
theorem orgVideoStep_id (w : OrgWorld) (rules : List (String × List String))
    (scheme : String) (v : VideoMetadata) :
    ((orgVideoStep w rules scheme v).1).id = v.id := by
  unfold orgVideoStep
  cases categorizeVideo v rules scheme with
  | none => rfl
  | some c => exact moveVideoToCategory_id (w.moveOk v.id) v c w.downloadPath

/-- saveMetadata preserves uniqueness of ledger ids: the stale record is
filtered out before the fresh one is appended. -/
theorem saveMetadata_nodup (ok : Bool) (st : DMState) (m : VideoMetadata)
    (h : (ledgerIds st.metadataFile).Nodup) :
    (ledgerIds (saveMetadata ok st m).metadataFile).Nodup := by
  unfold saveMetadata
  split
  · simp only [ledgerIds, List.map_append]
    rw [List.nodup_append]
    refine ⟨?_, List.nodup_singleton _, ?_⟩
    · refine List.Nodup.sublist (List.Sublist.map _ (List.filter_sublist _)) ?_
      rwa [ledgerIds_eq_getD] at h
    · intro x hx
      obtain ⟨v, hv, hvx⟩ := List.mem_map.mp hx
      have hne : v.id ≠ m.id :=
        of_decide_eq_true (List.mem_filter.mp hv).2
      simp only [List.map_cons, List.map_nil, List.mem_singleton]
      rw [← hvx]
      exact hne
  · exact h

/-- C6: one record per provider asset id.  The fetch-completion append
first removes any record with the same id (the equation shown), so it
preserves uniqueness of ledger ids; the categorize pass rewrites the
ledger with exactly the same ids, so it preserves the invariant too. -/
theorem C6_ledger_unique_ids (ok : Bool) (st : DMState) (m : VideoMetadata)
    (w : OrgWorld) (options : OrganizationOptions)
    (hst : (ledgerIds st.metadataFile).Nodup)
    (hw : (ledgerIds w.metadataFile).Nodup) :
    (ok = true → (saveMetadata ok st m).metadataFile =
      some ((st.metadataFile.getD []).filter (fun v => v.id ≠ m.id)
        ++ [m])) ∧
    (ledgerIds (saveMetadata ok st m).metadataFile).Nodup ∧
    (∀ l', (organizeByCategory w options).2 = some l' →
      l'.map (fun v => v.id) = ledgerIds w.metadataFile ∧
      (l'.map (fun v => v.id)).Nodup) := by
  refine ⟨?_, saveMetadata_nodup ok st m hst, ?_⟩
  · intro hok
    unfold saveMetadata
    rw [if_pos hok]
  · intro l' hl'
    have hids : l'.map (fun v => v.id) = ledgerIds w.metadataFile := by
      cases hr : rulesOf options with
      | none =>
        unfold organizeByCategory at hl'
        rw [hr] at hl'
        simp only [] at hl'
        rw [hl']
        rfl
      | some rules0 =>
        cases hm : w.metadataFile with
        | none =>
          unfold organizeByCategory at hl'
          rw [hr, hm] at hl'
          simp at hl'
        | some metadata0 =>
          cases hwk : w.writeOk with
          | false =>
            unfold organizeByCategory at hl'
            rw [hr, hm, hwk] at hl'
            simp only [Bool.false_eq_true, if_false, Option.some.injEq] at hl'
            rw [← hl']
            rfl
          | true =>
            unfold organizeByCategory at hl'
            rw [hr, hm, hwk] at hl'
            simp only [if_true, Option.some.injEq] at hl'
            rw [← hl', orgLoop_snd]
            simp only [ledgerIds, List.map_map]
            refine List.map_congr_left (fun v _ => ?_)
            exact orgVideoStep_id w rules0 (schemeOf options) v
    exact ⟨hids, hids ▸ hw⟩

/-- C6 witness: a concrete append over a ledger already holding ids 1 and
2 replaces the stale record for id 2 and keeps ids unique. -/
theorem C6_ledger_unique_ids_witness :
    (saveMetadata true
        ⟨"dl", [1, 2], some [⟨1, "a.mp4", "dl/a.mp4", 1, "d", none,
          ⟨1, 1, 1, "u", [], ⟨1, "n", "nu"⟩⟩⟩,
          ⟨2, "b.mp4", "dl/b.mp4", 2, "d", none,
          ⟨1, 1, 1, "u", [], ⟨1, "n", "nu"⟩⟩⟩]⟩
        ⟨2, "c.mp4", "dl/c.mp4", 3, "d", none,
          ⟨1, 1, 1, "u", [], ⟨1, "n", "nu"⟩⟩⟩).metadataFile =
      some [⟨1, "a.mp4", "dl/a.mp4", 1, "d", none,
        ⟨1, 1, 1, "u", [], ⟨1, "n", "nu"⟩⟩⟩,
        ⟨2, "c.mp4", "dl/c.mp4", 3, "d", none,
        ⟨1, 1, 1, "u", [], ⟨1, "n", "nu"⟩⟩⟩] ∧
    (ledgerIds (saveMetadata true
        ⟨"dl", [1, 2], some [⟨1, "a.mp4", "dl/a.mp4", 1, "d", none,
          ⟨1, 1, 1, "u", [], ⟨1, "n", "nu"⟩⟩⟩,
          ⟨2, "b.mp4", "dl/b.mp4", 2, "d", none,
          ⟨1, 1, 1, "u", [], ⟨1, "n", "nu"⟩⟩⟩]⟩
        ⟨2, "c.mp4", "dl/c.mp4", 3, "d", none,
          ⟨1, 1, 1, "u", [], ⟨1, "n", "nu"⟩⟩⟩).metadataFile).Nodup := by
  constructor
  · have h := (C6_ledger_unique_ids true
      ⟨"dl", [1, 2], some [⟨1, "a.mp4", "dl/a.mp4", 1, "d", none,
        ⟨1, 1, 1, "u", [], ⟨1, "n", "nu"⟩⟩⟩,
        ⟨2, "b.mp4", "dl/b.mp4", 2, "d", none,
        ⟨1, 1, 1, "u", [], ⟨1, "n", "nu"⟩⟩⟩]⟩
      ⟨2, "c.mp4", "dl/c.mp4", 3, "d", none,
        ⟨1, 1, 1, "u", [], ⟨1, "n", "nu"⟩⟩⟩
      cOrgWorld ⟨none, none⟩ (by decide) (by decide)).1 rfl
    rw [h]
    rfl
  · exact (C6_ledger_unique_ids true
      ⟨"dl", [1, 2], some [⟨1, "a.mp4", "dl/a.mp4", 1, "d", none,
        ⟨1, 1, 1, "u", [], ⟨1, "n", "nu"⟩⟩⟩,
        ⟨2, "b.mp4", "dl/b.mp4", 2, "d", none,
        ⟨1, 1, 1, "u", [], ⟨1, "n", "nu"⟩⟩⟩]⟩
      ⟨2, "c.mp4", "dl/c.mp4", 3, "d", none,
        ⟨1, 1, 1, "u", [], ⟨1, "n", "nu"⟩⟩⟩
      cOrgWorld ⟨none, none⟩ (by decide) (by decide)).2.1

/-- Insertion into the id set preserves membership. -/
theorem insertId_mono (s : List Nat) (id x : Nat)
    (h : s.contains x = true) : (insertId s id).contains x = true := by
  have hx : x ∈ s := by simpa using h
  unfold insertId
  split
  · exact h
  · simpa using List.mem_append_left [id] hx

/-- saveMetadata preserves membership in the in-memory id set. -/
theorem saveMetadata_mono (ok : Bool) (st : DMState) (m : VideoMetadata)
    (x : Nat) (h : st.downloadedVideos.contains x = true) :
    ((saveMetadata ok st m).downloadedVideos).contains x = true := by
  unfold saveMetadata
  split
  · exact insertId_mono _ _ _ h
  · exact h

/-- A fetch never removes an id from the in-memory set. -/
theorem downloadVideo_mono (w : World) (st : DMState)
    (videoDetails : PexelsVideo) (o : DownloadOptions) (x : Nat)
    (h : st.downloadedVideos.contains x = true) :
    (((downloadVideo w st videoDetails o).2.1).downloadedVideos).contains x
      = true := by
  cases hc : st.downloadedVideos.contains o.video_id with
  | true =>
    have hc' : o.video_id ∈ st.downloadedVideos := by simpa using hc
    unfold downloadVideo
    cases hf : st.metadataFile with
    | none => simpa [hc', hf] using h
    | some metadata =>
      cases hfind : metadata.find? (fun v => v.id = o.video_id) with
      | none => simpa [hc', hf, hfind] using h
      | some r => simpa [hc', hf, hfind] using h
  | false =>
    have hc' : o.video_id ∉ st.downloadedVideos := by simpa using hc
    unfold downloadVideo
    cases hsel : selectBestQuality videoDetails.video_files
        (jsStrOr o.quality "hd") with
    | none => simpa [hc', hsel] using h
    | some f =>
      cases htr : w.transferOk with
      | false => simpa [hc', hsel, htr] using h
      | true =>
        simp only [hc', hsel, htr]
        simpa [hc', hsel, htr] using saveMetadata_mono w.writeLedgerOk st _ x h

/-- A fetch preserves uniqueness of ledger ids. -/
theorem downloadVideo_nodup (w : World) (st : DMState)
    (videoDetails : PexelsVideo) (o : DownloadOptions)
    (h : (ledgerIds st.metadataFile).Nodup) :
    (ledgerIds (((downloadVideo w st videoDetails o).2.1).metadataFile)).Nodup
    := by
  cases hc : st.downloadedVideos.contains o.video_id with
  | true =>
    have hc' : o.video_id ∈ st.downloadedVideos := by simpa using hc
    unfold downloadVideo
    cases hf : st.metadataFile with
    | none => simpa [hc', hf] using h
    | some metadata =>
      cases hfind : metadata.find? (fun v => v.id = o.video_id) with
      | none =>
        rw [hf] at h
        simpa [hc', hf, hfind] using h
      | some r =>
        rw [hf] at h
        simpa [hc', hf, hfind] using h
  | false =>
    have hc' : o.video_id ∉ st.downloadedVideos := by simpa using hc
    unfold downloadVideo
    cases hsel : selectBestQuality videoDetails.video_files
        (jsStrOr o.quality "hd") with
    | none => simpa [hc', hsel] using h
    | some f =>
      cases htr : w.transferOk with
      | false => simpa [hc', hsel, htr] using h
      | true =>
        simp only [hc', hsel, htr]
        simpa [hc', hsel, htr] using
          saveMetadata_nodup w.writeLedgerOk st _ h

/-- A fetch transfers nothing (dedup or pre-transfer failure) or exactly
its own asset id, and a transfer happens only when the id was not yet in
the in-memory set. -/
theorem downloadVideo_transfers (w : World) (st : DMState)
    (videoDetails : PexelsVideo) (o : DownloadOptions) :
    (downloadVideo w st videoDetails o).2.2.networkTransfers = [] ∨
    (st.downloadedVideos.contains o.video_id = false ∧
     (downloadVideo w st videoDetails o).2.2.networkTransfers =
       [o.video_id]) := by
  cases hc : st.downloadedVideos.contains o.video_id with
  | true =>
    have hc' : o.video_id ∈ st.downloadedVideos := by simpa using hc
    left
    unfold downloadVideo
    cases hf : st.metadataFile with
    | none => simp [hc', hf, noEffects]
    | some metadata =>
      cases hfind : metadata.find? (fun v => v.id = o.video_id) with
      | none => simp [hc', hf, hfind, noEffects]
      | some r => simp [hc', hf, hfind, noEffects]
  | false =>
    have hc' : o.video_id ∉ st.downloadedVideos := by simpa using hc
    unfold downloadVideo
    cases hsel : selectBestQuality videoDetails.video_files
        (jsStrOr o.quality "hd") with
    | none => left; simp [hc', hsel, noEffects]
    | some f =>
      cases htr : w.transferOk with
      | false => right; exact ⟨rfl, by simp [hc', hsel, htr]⟩
      | true => right; exact ⟨rfl, by simp [hc', hsel, htr]⟩

/-- A fetch result always carries the requested asset id. -/
theorem downloadVideo_result_id (w : World) (st : DMState)
    (videoDetails : PexelsVideo) (o : DownloadOptions) :
    (downloadVideo w st videoDetails o).1.video_id = o.video_id := by
  cases hc : st.downloadedVideos.contains o.video_id with
  | true =>
    have hc' : o.video_id ∈ st.downloadedVideos := by simpa using hc
    unfold downloadVideo
    cases hf : st.metadataFile with
    | none => simp [hc', hf, failedResult]
    | some metadata =>
      cases hfind : metadata.find? (fun v => v.id = o.video_id) with
      | none => simp [hc', hf, hfind, failedResult]
      | some r => simp [hc', hf, hfind]
  | false =>
    have hc' : o.video_id ∉ st.downloadedVideos := by simpa using hc
    unfold downloadVideo
    cases hsel : selectBestQuality videoDetails.video_files
        (jsStrOr o.quality "hd") with
    | none => simp [hc', hsel, failedResult]
    | some f =>
      cases htr : w.transferOk with
      | false => simp [hc', hsel, htr, failedResult]
      | true => simp [hc', hsel, htr]

/-- Batch results carry exactly the selected ids, in order. -/
theorem batchRun_ids (ws : Nat → World) (options : BatchDownloadOptions)
    (i : Nat) (st : DMState) (l : List PexelsVideo) :
    (batchRun ws options i st l).1.map (fun r => r.video_id) =
      l.map (fun v => v.id) := by
  induction l generalizing i st with
  | nil => rfl
  | cons v rest ih =>
    simp only [batchRun, List.map_cons]
    rw [downloadVideo_result_id, ih]

/-- The batch loop never removes an id from the in-memory set. -/
theorem batchRun_mono (ws : Nat → World) (options : BatchDownloadOptions)
    (i : Nat) (st : DMState) (l : List PexelsVideo) (x : Nat)
    (h : st.downloadedVideos.contains x = true) :
    (((batchRun ws options i st l).2.1).downloadedVideos).contains x
      = true := by
  induction l generalizing i st with
  | nil => exact h
  | cons v rest ih =>
    simp only [batchRun]
    exact ih (i + 1) _ (downloadVideo_mono (ws i) st v _ x h)

/-- An id already in the in-memory set is never transferred during a
batch. -/
theorem batchRun_no_transfer (ws : Nat → World)
    (options : BatchDownloadOptions) (i : Nat) (st : DMState)
    (l : List PexelsVideo) (x : Nat)
    (hx : st.downloadedVideos.contains x = true) :
    x ∉ (batchRun ws options i st l).2.2.networkTransfers := by
  induction l generalizing i st with
  | nil => simp [batchRun, noEffects]
  | cons v rest ih =>
    simp only [batchRun, effAppend]
    intro hmem
    rcases List.mem_append.mp hmem with h1 | h2
    · rcases downloadVideo_transfers (ws i) st v
        { video_id := v.id, quality := options.quality,
          filename := none, category := options.category } with ht | ⟨hc, ht⟩
      · rw [ht] at h1
        cases h1
      · rw [ht] at h1
        have hxv : x = v.id := by simpa using h1
        rw [hxv] at hx
        rw [hx] at hc
        cases hc
    · exact ih (i + 1) _ (downloadVideo_mono (ws i) st v _ x hx) h2

/-- A batch preserves uniqueness of ledger ids. -/
theorem batchRun_nodup (ws : Nat → World) (options : BatchDownloadOptions)
    (i : Nat) (st : DMState) (l : List PexelsVideo)
    (h : (ledgerIds st.metadataFile).Nodup) :
    (ledgerIds (((batchRun ws options i st l).2.1).metadataFile)).Nodup := by
  induction l generalizing i st with
  | nil => exact h
  | cons v rest ih =>
    simp only [batchRun]
    exact ih (i + 1) _ (downloadVideo_nodup (ws i) st v _ h)

/-- Survivors of an applied filter block satisfy every criterion,
including the Ledger dedup drop. -/
theorem filterVideos_mem (st : DMState) (videos : List PexelsVideo)
    (options : BatchDownloadOptions) (criteria : FilterCriteria)
    (v : PexelsVideo) (hc : options.filter_criteria = some criteria)
    (hv : v ∈ filterVideos st videos options) :
    st.downloadedVideos.contains v.id = false ∧
    (jsNatTruthy criteria.min_width = true →
      ¬ v.width < criteria.min_width.getD 0) ∧
    (jsNatTruthy criteria.min_height = true →
      ¬ v.height < criteria.min_height.getD 0) ∧
    (jsRatTruthy criteria.preferred_fps = true →
      v.video_files.any
        (fun f => f.fps = criteria.preferred_fps.getD 0) = true) ∧
    (∀ ex, criteria.exclude_ids = some ex →
      ex.contains v.id = false) := by
  unfold filterVideos at hv
  rw [hc] at hv
  have hp : filterPred st criteria v = true := (List.mem_filter.mp hv).2
  unfold filterPred at hp
  by_cases h1 : jsNatTruthy criteria.min_width = true ∧
      v.width < criteria.min_width.getD 0
  · rw [if_pos h1] at hp
    cases hp
  rw [if_neg h1] at hp
  by_cases h2 : jsNatTruthy criteria.min_height = true ∧
      v.height < criteria.min_height.getD 0
  · rw [if_pos h2] at hp
    cases hp
  rw [if_neg h2] at hp
  by_cases h3 : jsRatTruthy criteria.preferred_fps = true ∧
      v.video_files.all
        (fun f => f.fps ≠ criteria.preferred_fps.getD 0) = true
  · rw [if_pos h3] at hp
    cases hp
  rw [if_neg h3] at hp
  by_cases h4 : criteria.exclude_ids.isSome = true ∧
      (criteria.exclude_ids.getD []).contains v.id = true
  · rw [if_pos h4] at hp
    cases hp
  rw [if_neg h4] at hp
  by_cases h5 : st.downloadedVideos.contains v.id = true
  · rw [if_pos h5] at hp
    cases hp
  refine ⟨Bool.not_eq_true _ |>.mp h5, ?_, ?_, ?_, ?_⟩
  · intro ha
    exact not_and.mp h1 ha
  · intro ha
    exact not_and.mp h2 ha
  · intro ha
    have hall : ¬ v.video_files.all
        (fun f => f.fps ≠ criteria.preferred_fps.getD 0) = true :=
      not_and.mp h3 ha
    rw [List.all_eq_true] at hall
    push_neg at hall
    obtain ⟨f, hf, hfp⟩ := hall
    rw [List.any_eq_true]
    refine ⟨f, hf, ?_⟩
    simpa using hfp
  · intro ex hex
    have hns : ¬ (criteria.exclude_ids.getD []).contains v.id = true := by
      intro hcont
      exact h4 ⟨by simp [hex], hcont⟩
    rw [hex] at hns
    simpa using Bool.not_eq_true _ |>.mp hns

/-- C2 counterexample: asset 1 already has a Ledger record and is in the
in-memory set, yet a batchFetch without a filter block never filters at
all — the already-fetched candidate survives filtering and enters the
truncated download list, refuting "filtering ... drops every asset
already present in the Ledger". -/
theorem C2_batch_counterexample :
    dState1.downloadedVideos.contains pVideo1.id = true ∧
    ledgerIds dState1.metadataFile = [1] ∧
    filterVideos dState1 [pVideo1] ⟨none, none, none, none⟩ = [pVideo1] ∧
    batchSelection dState1 [pVideo1] ⟨none, none, none, none⟩ =
      [pVideo1] :=
  ⟨rfl, rfl, rfl, rfl⟩

/-- C2 (amended): when a filter block is specified, filtering happens
before truncation to the max item count and drops every asset already in
the Ledger along with assets failing the minimum-dimension,
preferred-frame-rate and exclude-id criteria; when no filter block is
given, no candidate is dropped at all — but an already-fetched asset id
is still never re-transferred (the per-fetch dedup check answers from
the ledger) and never appears twice in the Ledger. -/
theorem C2_batch_dedup (ws : Nat → World) (st : DMState)
    (videos : List PexelsVideo) (options : BatchDownloadOptions) :
    (∀ (criteria : FilterCriteria) (v : PexelsVideo),
      options.filter_criteria = some criteria →
      v ∈ filterVideos st videos options →
      st.downloadedVideos.contains v.id = false ∧
      (jsNatTruthy criteria.min_width = true →
        ¬ v.width < criteria.min_width.getD 0) ∧
      (jsNatTruthy criteria.min_height = true →
        ¬ v.height < criteria.min_height.getD 0) ∧
      (jsRatTruthy criteria.preferred_fps = true →
        v.video_files.any
          (fun f => f.fps = criteria.preferred_fps.getD 0) = true) ∧
      (∀ ex, criteria.exclude_ids = some ex →
        ex.contains v.id = false)) ∧
    (options.filter_criteria = none →
      filterVideos st videos options = videos) ∧
    batchSelection st videos options =
      (filterVideos st videos options).take
        (jsNatOr options.max_videos 10) ∧
    (batchDownload ws st videos options).1.map (fun r => r.video_id) =
      (batchSelection st videos options).map (fun v => v.id) ∧
    (∀ x, st.downloadedVideos.contains x = true →
      x ∉ (batchDownload ws st videos options).2.2.networkTransfers) ∧
    ((ledgerIds st.metadataFile).Nodup →
      (ledgerIds
        (((batchDownload ws st videos options).2.1).metadataFile)).Nodup)
    := by
  refine ⟨?_, ?_, rfl, ?_, ?_, ?_⟩
  · intro criteria v hc hv
    exact filterVideos_mem st videos options criteria v hc hv
  · intro h
    unfold filterVideos
    rw [h]
  · exact batchRun_ids ws options 0 st (batchSelection st videos options)
  · intro x hx
    exact batchRun_no_transfer ws options 0 st
      (batchSelection st videos options) x hx
  · intro h
    exact batchRun_nodup ws options 0 st
      (batchSelection st videos options) h

/-- C2 witness: with the populated filter block over candidates 1 and 2
(1 already fetched), the survivor satisfies every criterion and the
Ledger drop; with no filter block nothing is dropped; running the batch
transfers nothing for the already-fetched id 1 and keeps ledger ids
unique. -/
theorem C2_batch_dedup_witness :
    (dState1.downloadedVideos.contains pVideo2.id = false ∧
     (jsNatTruthy bCrit1.min_width = true →
       ¬ pVideo2.width < bCrit1.min_width.getD 0) ∧
     (jsNatTruthy bCrit1.min_height = true →
       ¬ pVideo2.height < bCrit1.min_height.getD 0) ∧
     (jsRatTruthy bCrit1.preferred_fps = true →
       pVideo2.video_files.any
         (fun f => f.fps = bCrit1.preferred_fps.getD 0) = true) ∧
     (∀ ex, bCrit1.exclude_ids = some ex →
       ex.contains pVideo2.id = false)) ∧
    filterVideos dState1 [pVideo1, pVideo2] bOptsNone =
      [pVideo1, pVideo2] ∧
    (1 ∉ (batchDownload wsOne dState1 [pVideo1, pVideo2]
      bOpts1).2.2.networkTransfers) ∧
    (ledgerIds ((batchDownload wsOne dState1 [pVideo1, pVideo2]
      bOpts1).2.1).metadataFile).Nodup :=
  ⟨(C2_batch_dedup wsOne dState1 [pVideo1, pVideo2] bOpts1).1
     bCrit1 pVideo2 rfl (by decide),
   (C2_batch_dedup wsOne dState1 [pVideo1, pVideo2] bOptsNone).2.1 rfl,
   (C2_batch_dedup wsOne dState1 [pVideo1, pVideo2] bOpts1).2.2.2.2.1
     1 rfl,
   (C2_batch_dedup wsOne dState1 [pVideo1, pVideo2] bOpts1).2.2.2.2.2
     (by decide)⟩
